import Mathlib

/-!
# Verification of the pet-detector hyperparameter-sweep notebook

The repository is a single notebook (`src/demo.ipynb`) that configures an
Azure ML HyperDrive sweep (random log-uniform learning-rate sampling, a
bandit early-termination policy with slack factor 0.15 and evaluation
interval 2, at most 20 total and 4 concurrent runs, maximizing
`validation_accuracy`), writes the per-trial entry script `scripts/train.py`,
and registers a model from a hard-coded run id.

The sweep controller, sampler and bandit policy themselves run inside the
external platform; they are not implemented in the repository. Where a claim
concerns them, the definitions below are modelled from the specification
document and say so in their doc comments. The parts that are code in the
repository (the `train.py` script written by the notebook, the notebook's
configuration values, and the model-registration cell) are embedded directly
from the notebook source.
-/

namespace PetDetector

/-- Trial status, modelled from the spec (§3 Data Model):
PENDING, RUNNING, COMPLETED, CANCELLED, FAILED. -/
inductive Status where
  | PENDING
  | RUNNING
  | COMPLETED
  | CANCELLED
  | FAILED
deriving DecidableEq, Repr

/-- Modelled from the spec: COMPLETED, CANCELLED and FAILED are the terminal
statuses. -/
def Status.isTerminal : Status → Bool
  | .COMPLETED => true
  | .CANCELLED => true
  | .FAILED => true
  | _ => false

/-- Optimization direction of the primary metric (spec §6; the notebook uses
`PrimaryMetricGoal.MAXIMIZE`). -/
inductive Goal where
  | MAXIMIZE
  | MINIMIZE
deriving DecidableEq, Repr

/-- A single intermediate metric observation: step number and metric value
(spec §3: "a monotonically updated sequence of intermediate metric
observations (metric name, step, value)"; the metric name is fixed per sweep
so it is kept in the configuration, not per observation). -/
structure Observation where
  step : Nat
  value : ℚ
deriving DecidableEq, Repr

/-- Modelled from the spec (§3): a Trial has a unique id, a candidate
hyperparameter, a current status, the latest applied metric observation
(observations are applied in non-decreasing step order, so the latest one is
the whole recorded latest-observation state) and a final metric once
completed. -/
structure Trial where
  id : Nat
  param : ℚ
  status : Status
  lastObs : Option Observation
  finalMetric : Option ℚ
deriving DecidableEq, Repr

/-- Sweep configuration, embedded from the notebook's
`HyperDriveRunConfig` / `BanditPolicy` arguments (src/demo.ipynb, cell 14). -/
structure SweepConfig where
  metricName : String
  goal : Goal
  maxTotalTrials : Nat
  maxConcurrentTrials : Nat
  slackFactor : ℚ
  evaluationInterval : Nat
deriving DecidableEq, Repr

/-- The notebook's configuration (src/demo.ipynb cell 14):
`primary_metric_name = "validation_accuracy"`,
`primary_metric_goal = PrimaryMetricGoal.MAXIMIZE`,
`max_total_runs = 20`, `max_concurrent_runs = 4`,
`BanditPolicy(slack_factor = 0.15, evaluation_interval = 2)`. -/
def notebookConfig : SweepConfig :=
  { metricName := "validation_accuracy"
  , goal := .MAXIMIZE
  , maxTotalTrials := 20
  , maxConcurrentTrials := 4
  , slackFactor := 3 / 20
  , evaluationInterval := 2 }

/-! ## The per-trial entry script `scripts/train.py`

Embedded from src/demo.ipynb cell 11 (`%%writefile scripts/train.py`). The
script parses `--datastore-dir` and `--learning-rate` (a float with
`default=0.01`) and calls `rt.train` with fixed architecture, directories
derived from the datastore dir, the parsed learning rate, 2000 training
steps and `use_hyperdrive=True`. -/

/-- The argument vector `train.py` receives: the datastore mount point and an
optional `--learning-rate` value (absent when the flag is not passed). -/
structure TrainArgs where
  datastore_dir : String
  learning_rate : Option ℚ
deriving DecidableEq, Repr

/-- The full argument list of the `rt.train(...)` call in `train.py`. -/
structure TrainCall where
  architecture : String
  image_dir : String
  output_dir : String
  bottleneck_dir : String
  model_dir : String
  learning_rate : ℚ
  training_steps : Nat
  use_hyperdrive : Bool
deriving DecidableEq, Repr

/-- `argparse` semantics of `--learning-rate` in `train.py`: when the flag is
absent the parsed value is the declared `default=0.01`; when present it is
the given float. -/
def parsedLearningRate (a : Option ℚ) : ℚ :=
  match a with
  | none => 1 / 100
  | some v => v

/-- The body of `scripts/train.py`: build the directory paths from
`args.datastore_dir` with `os.path.join` and invoke `rt.train` with the
constants written in the script. -/
def trainPyMain (args : TrainArgs) : TrainCall :=
  { architecture := "mobilenet_0.50_224"
  , image_dir := args.datastore_dir ++ "/images"
  , output_dir := "outputs"
  , bottleneck_dir := args.datastore_dir ++ "/bottleneck"
  , model_dir := args.datastore_dir ++ "/model"
  , learning_rate := parsedLearningRate args.learning_rate
  , training_steps := 2000
  , use_hyperdrive := true }

/-! ## The model-registration cell

Embedded from src/demo.ipynb cell 22: regardless of the HyperDrive run
submitted earlier in the notebook (`hd_run = experiment.submit(...)`,
cell 14) and of the later reassignment `hd_run_id =
'ConnectExperiment_1542152717287'` (cell 18), the registration cell builds
`best_run = Run(experiment, run_id='ConnectExperiment_1542152717287_15')`
from a string literal and calls
`best_run.register_model(model_name='pet-detector', model_path='outputs')`. -/

/-- What the registration cell does: which run the model is taken from, and
the registered name and path. -/
structure ModelRegistration where
  runIdUsed : String
  modelName : String
  modelPath : String
deriving DecidableEq, Repr

/-- The registration cell of the notebook, as a function of the run id the
earlier sweep submission produced (`hd_run_id`). The cell never reads that
value: the run id is the string literal written in the cell. -/
def registerBestRun (hdRunId : String) : ModelRegistration :=
  { runIdUsed := "ConnectExperiment_1542152717287_15"
  , modelName := "pet-detector"
  , modelPath := "outputs" }

/-! ## The sweep controller state machine

Modelled from the spec (§4.4, §5): the controller is the single writer of
trial statuses; trials are kept in creation order, so the number of trials
ever created is the length of the list. Events are: creation of a PENDING
trial (guarded by the total-trials cap), promotion PENDING → RUNNING
(guarded by the concurrency cap), completion / failure / cancellation
reports from the executor (ignored on trials that are not RUNNING), metric
observations (applied per-trial in non-decreasing step order, stale ones
discarded), and a bandit-policy pass at steps that are multiples of the
evaluation interval. -/

/-- Modelled from the spec: the controller's bookkeeping for one sweep —
the trials in creation order. -/
structure SweepState where
  trials : List Trial
deriving DecidableEq, Repr

/-- A trial is counted as running when its status is RUNNING. -/
def isRunningB (t : Trial) : Bool := t.status == .RUNNING

/-- Number of trials currently in status RUNNING. -/
def countRunning (s : SweepState) : Nat := s.trials.countP isRunningB

/-- Number of trials ever created (trials are never removed from the
bookkeeping; terminal trials merely stop consuming resources). -/
def everCreated (s : SweepState) : Nat := s.trials.length

/-- Apply a function to the trial at a given position, leaving the rest of
the list unchanged. -/
def modifyAt (f : Trial → Trial) : Nat → List Trial → List Trial
  | _, [] => []
  | 0, t :: ts => f t :: ts
  | n + 1, t :: ts => t :: modifyAt f n ts

/-- PENDING → RUNNING promotion; any other status is left untouched. -/
def promoteTrial (t : Trial) : Trial :=
  if t.status = .PENDING then { t with status := .RUNNING } else t

/-- Executor reports normal completion with a final metric: RUNNING →
COMPLETED. A report arriving for a trial that is not RUNNING (in particular
a late report for an already-CANCELLED trial) is ignored. -/
def applyCompleted (m : ℚ) (t : Trial) : Trial :=
  if t.status = .RUNNING then { t with status := .COMPLETED, finalMetric := some m } else t

/-- Executor reports an unrecoverable error: RUNNING → FAILED; ignored on
non-RUNNING trials. -/
def applyFailed (t : Trial) : Trial :=
  if t.status = .RUNNING then { t with status := .FAILED } else t

/-- Cancellation (bandit policy or explicit external request): RUNNING →
CANCELLED; ignored on non-RUNNING trials. -/
def applyCancel (t : Trial) : Trial :=
  if t.status = .RUNNING then { t with status := .CANCELLED } else t

/-- An observation is fresh for a trial when its step does not precede the
step of the trial's recorded latest observation. -/
def freshObs (t : Trial) (o : Observation) : Bool :=
  match t.lastObs with
  | none => true
  | some p => p.step ≤ o.step

/-- Apply a metric observation to a trial: recorded only on a RUNNING trial
and only when fresh; a stale (out-of-order) observation is discarded and the
trial is left unchanged (no error is raised — the function is total). -/
def applyObs (o : Observation) (t : Trial) : Trial :=
  if t.status = .RUNNING ∧ freshObs t o = true then { t with lastObs := some o } else t

/-! ### The bandit early-termination policy (spec §4.3) -/

/-- `a` is strictly worse than `b` for the given goal. -/
def isWorse (goal : Goal) (a b : ℚ) : Bool :=
  match goal with
  | .MAXIMIZE => decide (a < b)
  | .MINIMIZE => decide (b < a)

/-- `a` is strictly better than `b` for the given goal. -/
def isBetter (goal : Goal) (a b : ℚ) : Bool :=
  match goal with
  | .MAXIMIZE => decide (b < a)
  | .MINIMIZE => decide (a < b)

/-- Modelled from the spec: the bandit threshold —
`best / (1 + S)` when maximizing, `best * (1 + S)` when minimizing. -/
def threshold (goal : Goal) (slack best : ℚ) : ℚ :=
  match goal with
  | .MAXIMIZE => best / (1 + slack)
  | .MINIMIZE => best * (1 + slack)

/-- The trial's latest reported metric at an evaluation step: defined only
when the trial has reached that step, i.e. its latest observation is at step
`stp` or later; a trial with too few observations has not reached a
comparable point and yields `none`. -/
def latestAt (t : Trial) (stp : Nat) : Option ℚ :=
  match t.lastObs with
  | none => none
  | some o => if stp ≤ o.step then some o.value else none

/-- Modelled from the spec: the bandit policy cancels a trial at an
evaluation step exactly when it is RUNNING, has reached the step, and its
latest reported metric there is strictly worse than the threshold (ties
survive). -/
def banditCancels (goal : Goal) (slack : ℚ) (stp : Nat) (best : ℚ) (t : Trial) : Bool :=
  isRunningB t &&
    match latestAt t stp with
    | none => false
    | some v => isWorse goal v (threshold goal slack best)

/-- Metric values a trial contributes to the best-so-far at a step: its
latest observation when reported at or before that step (no lookahead);
FAILED trials do not count toward best-so-far. -/
def candMetrics (stp : Nat) (t : Trial) : List ℚ :=
  if t.status = .FAILED then []
  else
    match t.lastObs with
    | none => []
    | some o => if o.step ≤ stp then [o.value] else []

/-- Best metric value reported at or before a step across all non-FAILED
trials; `none` when nothing has been reported yet. -/
def bestSoFar (goal : Goal) (s : SweepState) (stp : Nat) : Option ℚ :=
  (s.trials.flatMap (candMetrics stp)).foldl
    (fun acc v =>
      match acc with
      | none => some v
      | some b => if isBetter goal v b then some v else some b)
    none

/-- One bandit-policy pass over the whole state at an evaluation step:
every trial the policy condemns is cancelled, the rest are untouched. When
no metric has been reported yet there is no best-so-far and nothing is
cancelled. -/
def banditPass (cfg : SweepConfig) (stp : Nat) (s : SweepState) : SweepState :=
  match bestSoFar cfg.goal s stp with
  | none => s
  | some b =>
      { trials := s.trials.map
          (fun t => if banditCancels cfg.goal cfg.slackFactor stp b t then applyCancel t else t) }

/-- Modelled from the spec (§4.4 transition rules): the controller's step
relation. Creation is guarded by the total-trials cap, promotion by the
concurrency cap; executor reports and observations may arrive for any trial
at any time (the apply functions ignore them on trials that are not
RUNNING); the bandit policy runs only at steps that are multiples of the
evaluation interval. -/
inductive Step (cfg : SweepConfig) : SweepState → SweepState → Prop where
  | createPending (p : ℚ) (s : SweepState) (h : everCreated s < cfg.maxTotalTrials) :
      Step cfg s ⟨s.trials ++ [⟨everCreated s, p, .PENDING, none, none⟩]⟩
  | promote (i : Nat) (s : SweepState) (h : countRunning s < cfg.maxConcurrentTrials) :
      Step cfg s ⟨modifyAt promoteTrial i s.trials⟩
  | reportCompleted (i : Nat) (m : ℚ) (s : SweepState) :
      Step cfg s ⟨modifyAt (applyCompleted m) i s.trials⟩
  | reportFailed (i : Nat) (s : SweepState) :
      Step cfg s ⟨modifyAt applyFailed i s.trials⟩
  | cancelExternal (i : Nat) (s : SweepState) :
      Step cfg s ⟨modifyAt applyCancel i s.trials⟩
  | observe (i : Nat) (o : Observation) (s : SweepState) :
      Step cfg s ⟨modifyAt (applyObs o) i s.trials⟩
  | banditSweep (stp : Nat) (s : SweepState) (hdiv : cfg.evaluationInterval ∣ stp) :
      Step cfg s (banditPass cfg stp s)

/-- States reachable from the empty initial state by controller steps. -/
inductive Reachable (cfg : SweepConfig) : SweepState → Prop where
  | init : Reachable cfg ⟨[]⟩
  | step {s s' : SweepState} : Reachable cfg s → Step cfg s s' → Reachable cfg s'

/-! ### Best-trial selection (spec §4.4 loop behavior) -/

/-- Final metric of a trial for ranking purposes (completed trials always
carry one; `0` is a placeholder for the others). -/
def metricOf (t : Trial) : ℚ := t.finalMetric.getD 0

/-- Pick the best trial of a list together with its position: the trial with
the best final metric for the goal, ties broken in favour of the earliest
element. -/
def pickBestIdx (goal : Goal) : List Trial → Option (Nat × Trial)
  | [] => none
  | t :: ts =>
      match pickBestIdx goal ts with
      | none => some (0, t)
      | some (i, u) =>
          if isBetter goal (metricOf u) (metricOf t) then some (i + 1, u) else some (0, t)

/-- The trials of a state with status COMPLETED, in creation order. -/
def completedTrials (s : SweepState) : List Trial :=
  s.trials.filter (fun t => t.status == .COMPLETED)

/-- Modelled from the spec: the controller's overall result — the COMPLETED
trial with the best final metric, ties broken by earliest creation order
(the index returned is the position among the completed trials, which are in
creation order). -/
def selectBest (goal : Goal) (s : SweepState) : Option (Nat × Trial) :=
  pickBestIdx goal (completedTrials s)

/-! ### SweepJob construction and validation (spec §6, §7) -/

/-- The fail-fast construction errors of the spec (§7). -/
inductive SweepError where
  | InvalidDistributionError
  | InvalidConfigurationError
deriving DecidableEq, Repr

/-- The raw configuration surface of a sweep before validation (spec §6):
sampling bounds and the two trial counts, the counts as integers so that
non-positive inputs are expressible. (The bounds are rationals, so the
spec's non-finite floating-point inputs have no counterpart in this model;
every representable bound is finite.) -/
structure RawSweepConfig where
  low : ℚ
  high : ℚ
  maxTotalTrials : Int
  maxConcurrentTrials : Int
deriving DecidableEq, Repr

/-- Modelled from the spec: fail-fast validation at SweepJob construction.
Malformed sampling bounds (`low ≥ high`) raise `InvalidDistributionError`;
`max_concurrent_trials > max_total_trials` or a non-positive count raises
`InvalidConfigurationError`; otherwise construction succeeds and returns the
validated configuration. Nothing after construction re-raises these errors:
the controller's step relation (`Step`) is defined for every state and never
produces an error value. -/
def mkSweepJob (r : RawSweepConfig) : Except SweepError RawSweepConfig :=
  if r.high ≤ r.low then
    .error .InvalidDistributionError
  else if r.maxTotalTrials < r.maxConcurrentTrials ∨ r.maxConcurrentTrials ≤ 0 ∨
      r.maxTotalTrials ≤ 0 then
    .error .InvalidConfigurationError
  else
    .ok r

/-! ### The log-uniform hyperparameter sampler (spec §4.1)

The sampler runs inside the external platform: `loguniform(-15, -3)` in the
notebook is only a configuration object. Modelled from the spec: a
LOG_UNIFORM draw over `[low, high]` is `exp` of a uniform draw over
`[log low, log high]`; the underlying uniform source is abstracted as a
value `u ∈ [0, 1]`. -/

/-- Modelled from the spec: one LOG_UNIFORM sample from `[low, high]`, given
the underlying uniform draw `u ∈ [0, 1]`. -/
noncomputable def logUniformSample (low high u : ℝ) : ℝ :=
  Real.exp ((1 - u) * Real.log low + u * Real.log high)

/-! ### Concrete trials and states used in the spec's worked examples -/

/-- The spec's worked bandit example: a running trial whose latest report at
step 2 is 0.70. -/
def trial070 : Trial := ⟨1, 1/2, .RUNNING, some ⟨2, 7/10⟩, none⟩

/-- The spec's worked bandit example: a running trial whose latest report at
step 2 is 0.80. -/
def trial080 : Trial := ⟨2, 1/2, .RUNNING, some ⟨2, 8/10⟩, none⟩

/-- A running trial whose latest report at step 2 equals the best-so-far
value 0.90 (a tie with the best). -/
def trial090 : Trial := ⟨3, 1/2, .RUNNING, some ⟨2, 9/10⟩, none⟩

/-- A trial already marked CANCELLED by the controller. -/
def cancelledTrial : Trial := ⟨0, 1/2, .CANCELLED, none, none⟩

/-- A one-trial state whose only trial is already CANCELLED, used to replay
a late executor report. -/
def cancelledState : SweepState := ⟨[cancelledTrial]⟩

/-- The trial with final metric 0.90 in the spec's best-trial-selection
example. -/
def bestExampleTrial : Trial := ⟨2, 1/2, .COMPLETED, none, some (90/100)⟩

/-- The spec's best-trial-selection example: four COMPLETED trials with
final metrics 0.79, 0.85, 0.90, 0.77 in creation order. -/
def exampleState : SweepState :=
  ⟨[⟨0, 1/2, .COMPLETED, none, some (79/100)⟩,
    ⟨1, 1/2, .COMPLETED, none, some (85/100)⟩,
    bestExampleTrial,
    ⟨3, 1/2, .COMPLETED, none, some (77/100)⟩]⟩

/-- The step of a trial's recorded latest observation (0 when none has been
recorded yet). -/
def obsStep (t : Trial) : Nat :=
  match t.lastObs with
  | none => 0
  | some o => o.step

/-- A running trial whose recorded latest observation is at step 5, used to
replay a stale observation. -/
def staleTrial : Trial := ⟨4, 1/2, .RUNNING, some ⟨5, 1/2⟩, none⟩

/-! ## Theorems -/

/-! ### Helper lemmas about `modifyAt` and counting -/

/-- `modifyAt` preserves the length of the list. -/
lemma length_modifyAt (f : Trial → Trial) (i : Nat) (l : List Trial) :
    (modifyAt f i l).length = l.length := by
  induction l generalizing i with
  | nil => simp [modifyAt]
  | cons t ts ih =>
      cases i with
      | zero => simp [modifyAt]
      | succ n => simp [modifyAt, ih n]

/-- Reading `modifyAt f j l` at position `i`. -/
lemma getElem?_modifyAt (f : Trial → Trial) (j i : Nat) (l : List Trial) :
    (modifyAt f j l)[i]? = if i = j then Option.map f l[i]? else l[i]? := by
  induction l generalizing i j with
  | nil => simp [modifyAt]
  | cons t ts ih =>
      cases j with
      | zero =>
          cases i with
          | zero => simp [modifyAt]
          | succ m => simp [modifyAt]
      | succ n =>
          cases i with
          | zero => simp [modifyAt]
          | succ m => simp [modifyAt, ih]

/-- Modifying one position raises a predicate count by at most one. -/
lemma countP_modifyAt_le_succ (p : Trial → Bool) (f : Trial → Trial) (i : Nat)
    (l : List Trial) : (modifyAt f i l).countP p ≤ l.countP p + 1 := by
  induction l generalizing i with
  | nil => simp [modifyAt]
  | cons t ts ih =>
      cases i with
      | zero =>
          simp only [modifyAt, List.countP_cons]
          split_ifs <;> omega
      | succ n =>
          simp only [modifyAt, List.countP_cons]
          have := ih n
          omega

/-- Modifying one position with a function that never turns a
non-satisfying element into a satisfying one does not raise the count. -/
lemma countP_modifyAt_le (p : Trial → Bool) (f : Trial → Trial)
    (hf : ∀ t, p (f t) = true → p t = true) (i : Nat) (l : List Trial) :
    (modifyAt f i l).countP p ≤ l.countP p := by
  induction l generalizing i with
  | nil => simp [modifyAt]
  | cons t ts ih =>
      cases i with
      | zero =>
          simp only [modifyAt, List.countP_cons]
          split_ifs with h1 h2
          · omega
          · exact absurd (hf t h1) h2
          · omega
          · omega
      | succ n =>
          simp only [modifyAt, List.countP_cons]
          have := ih n
          omega

/-- Mapping a function that never turns a non-satisfying element into a
satisfying one does not raise the count. -/
lemma countP_map_le (p : Trial → Bool) (f : Trial → Trial)
    (hf : ∀ t, p (f t) = true → p t = true) (l : List Trial) :
    (l.map f).countP p ≤ l.countP p := by
  rw [List.countP_map]
  exact List.countP_mono_left (fun a _ h => hf a h)

/-! ### Helper lemmas about the status-transition functions -/

/-- `applyCompleted` makes no trial RUNNING. -/
lemma isRunningB_applyCompleted (m : ℚ) (t : Trial) :
    isRunningB (applyCompleted m t) = true → isRunningB t = true := by
  unfold applyCompleted
  split
  · intro h; simp [isRunningB] at h
  · exact id

/-- `applyFailed` makes no trial RUNNING. -/
lemma isRunningB_applyFailed (t : Trial) :
    isRunningB (applyFailed t) = true → isRunningB t = true := by
  unfold applyFailed
  split
  · intro h; simp [isRunningB] at h
  · exact id

/-- `applyCancel` makes no trial RUNNING. -/
lemma isRunningB_applyCancel (t : Trial) :
    isRunningB (applyCancel t) = true → isRunningB t = true := by
  unfold applyCancel
  split
  · intro h; simp [isRunningB] at h
  · exact id

/-- `applyObs` never changes the status of a trial. -/
lemma isRunningB_applyObs (o : Observation) (t : Trial) :
    isRunningB (applyObs o t) = isRunningB t := by
  unfold applyObs
  split <;> simp [isRunningB]

/-- The bandit pass makes no trial RUNNING. -/
lemma isRunningB_banditGuard (goal : Goal) (slack : ℚ) (stp : Nat) (b : ℚ) (t : Trial) :
    isRunningB (if banditCancels goal slack stp b t then applyCancel t else t) = true →
      isRunningB t = true := by
  split
  · exact isRunningB_applyCancel t
  · exact id

/-- Terminal statuses are neither PENDING nor RUNNING. -/
lemma terminal_not_active (st : Status) (h : st.isTerminal = true) :
    st ≠ .PENDING ∧ st ≠ .RUNNING := by
  cases st <;> simp_all [Status.isTerminal]

/-- Promotion leaves a terminal trial unchanged. -/
lemma promoteTrial_terminal (t : Trial) (h : t.status.isTerminal = true) :
    promoteTrial t = t := by
  unfold promoteTrial
  rw [if_neg (terminal_not_active t.status h).1]

/-- A completion report is ignored on a terminal trial. -/
lemma applyCompleted_terminal (m : ℚ) (t : Trial) (h : t.status.isTerminal = true) :
    applyCompleted m t = t := by
  unfold applyCompleted
  rw [if_neg (terminal_not_active t.status h).2]

/-- A failure report is ignored on a terminal trial. -/
lemma applyFailed_terminal (t : Trial) (h : t.status.isTerminal = true) :
    applyFailed t = t := by
  unfold applyFailed
  rw [if_neg (terminal_not_active t.status h).2]

/-- A cancellation is ignored on a terminal trial. -/
lemma applyCancel_terminal (t : Trial) (h : t.status.isTerminal = true) :
    applyCancel t = t := by
  unfold applyCancel
  rw [if_neg (terminal_not_active t.status h).2]

/-- An observation is ignored on a terminal trial. -/
lemma applyObs_terminal (o : Observation) (t : Trial) (h : t.status.isTerminal = true) :
    applyObs o t = t := by
  unfold applyObs
  exact if_neg (fun hc => (terminal_not_active t.status h).2 hc.1)

/-- The bandit policy never condemns a terminal trial. -/
lemma banditCancels_terminal (goal : Goal) (slack : ℚ) (stp : Nat) (b : ℚ) (t : Trial)
    (h : t.status.isTerminal = true) : banditCancels goal slack stp b t = false := by
  have hr : isRunningB t = false := by
    simp [isRunningB, (terminal_not_active t.status h).2]
  unfold banditCancels
  rw [hr]
  simp

/-- C10: `train.py` never fails for a missing learning rate — without
`--learning-rate` it trains with the default 0.01, with the argument the
exact value is passed through unchanged, and every invocation uses
architecture `mobilenet_0.50_224`, 2000 training steps and
`use_hyperdrive = True`. -/
theorem trainPy_learning_rate_total :
    (∀ d : String, (trainPyMain ⟨d, none⟩).learning_rate = 1 / 100) ∧
    (∀ (d : String) (lr : ℚ), (trainPyMain ⟨d, some lr⟩).learning_rate = lr) ∧
    (∀ a : TrainArgs,
      (trainPyMain a).architecture = "mobilenet_0.50_224" ∧
      (trainPyMain a).training_steps = 2000 ∧
      (trainPyMain a).use_hyperdrive = true) :=
  ⟨fun _ => rfl, fun _ _ => rfl, fun _ => ⟨rfl, rfl, rfl⟩⟩

/-- C9: the registration cell operates on the hard-coded run id
`ConnectExperiment_1542152717287_15`: whatever run id the submitted sweep
produced, the model registered under the name `pet-detector` is taken from
that hard-coded run — the registration is a constant function of the sweep
outcome. -/
theorem registration_ignores_sweep_outcome :
    (∀ hdRunId : String,
      (registerBestRun hdRunId).runIdUsed = "ConnectExperiment_1542152717287_15" ∧
      (registerBestRun hdRunId).modelName = "pet-detector") ∧
    (∀ id1 id2 : String, registerBestRun id1 = registerBestRun id2) :=
  ⟨fun _ => ⟨rfl, rfl⟩, fun _ _ => rfl⟩

/-- C2: at an evaluation step, the MAXIMIZE bandit policy cancels a running
trial exactly when its latest reported metric at that step is strictly worse
than `best / (1 + S)` (so ties survive); a trial that has not reached the
step is exempt. With best-so-far 0.90 and S = 0.15 the threshold is 18/23 ≈
0.783: a trial reporting 0.70 is cancelled (its status becomes CANCELLED)
and a trial reporting 0.80 survives. -/
theorem bandit_cancels_iff_below_threshold (slack best : ℚ) (stp : Nat) (t : Trial)
    (v : ℚ) (hrun : t.status = .RUNNING) :
    (latestAt t stp = some v →
      (banditCancels .MAXIMIZE slack stp best t = true ↔ v < best / (1 + slack))) ∧
    (latestAt t stp = none → banditCancels .MAXIMIZE slack stp best t = false) ∧
    threshold .MAXIMIZE (3/20) (9/10) = 18/23 ∧
    banditCancels .MAXIMIZE (3/20) 2 (9/10) trial070 = true ∧
    (applyCancel trial070).status = .CANCELLED ∧
    banditCancels .MAXIMIZE (3/20) 2 (9/10) trial080 = false := by
  refine ⟨?_, ?_, ?_, ?_, ?_, ?_⟩
  · intro hv
    simp [banditCancels, isRunningB, isWorse, hrun, hv, threshold]
  · intro hv
    simp [banditCancels, isRunningB, hrun, hv]
  · norm_num [threshold]
  · norm_num [banditCancels, isRunningB, isWorse, latestAt, trial070, threshold]
  · norm_num [applyCancel, trial070]
  · norm_num [banditCancels, isRunningB, isWorse, latestAt, trial080, threshold]

/-- Witness for C2: the policy evaluated on the spec's worked example. -/
theorem bandit_cancels_iff_below_threshold_witness :
    banditCancels .MAXIMIZE (3/20) 2 (9/10) trial070 = true ∧
    banditCancels .MAXIMIZE (3/20) 2 (9/10) trial080 = false :=
  ⟨(bandit_cancels_iff_below_threshold (3/20) (9/10) 2 trial070 (7/10) rfl).2.2.2.1,
   (bandit_cancels_iff_below_threshold (3/20) (9/10) 2 trial080 (8/10) rfl).2.2.2.2.2⟩

/-- C8 counterexample: the claim says that with slack 0 the surviving
running trials are exactly those strictly worse than the best-so-far. At
`trial080` (latest metric 0.80, best 0.90, slack 0) the trial is strictly
worse than the best yet it does not survive — it is cancelled — so the
claimed equivalence fails at this input. -/
theorem slack_zero_survivors_counterexample :
    ¬ ((banditCancels .MAXIMIZE 0 2 (9/10) trial080 = false) ↔ ((8 : ℚ)/10 < 9/10)) := by
  intro h
  have hc : banditCancels .MAXIMIZE 0 2 (9/10) trial080 = true := by
    norm_num [banditCancels, isRunningB, isWorse, latestAt, trial080, threshold]
  have := h.mpr (by norm_num)
  rw [hc] at this
  simp at this

/-- C8 amended: with slack factor 0 the policy cancels exactly the running
trials that are strictly worse than the best-so-far; equivalently, a running
trial that has reached the evaluation step survives iff its latest metric is
at least the best-so-far (so only best-tying-or-best-beating trials
survive). -/
theorem slack_zero_cancels_strictly_worse (best : ℚ) (stp : Nat) (t : Trial) (v : ℚ)
    (hrun : t.status = .RUNNING) (hv : latestAt t stp = some v) :
    (banditCancels .MAXIMIZE 0 stp best t = false ↔ best ≤ v) ∧
    (banditCancels .MAXIMIZE 0 stp best t = true ↔ v < best) := by
  have hthr : threshold .MAXIMIZE 0 best = best := by norm_num [threshold]
  constructor
  · simp [banditCancels, isRunningB, isWorse, hrun, hv, hthr, not_lt]
  · simp [banditCancels, isRunningB, isWorse, hrun, hv, hthr]

/-- Witness for the amended C8: with slack 0 and best 0.90, the trial tying
the best at 0.90 survives and the trial at 0.80 is cancelled. -/
theorem slack_zero_cancels_strictly_worse_witness :
    banditCancels .MAXIMIZE 0 2 (9/10) trial090 = false ∧
    banditCancels .MAXIMIZE 0 2 (9/10) trial080 = true :=
  ⟨(slack_zero_cancels_strictly_worse (9/10) 2 trial090 (9/10) rfl rfl).1.mpr (by norm_num),
   (slack_zero_cancels_strictly_worse (9/10) 2 trial080 (8/10) rfl rfl).2.mpr (by norm_num)⟩

/-- C7: observations are applied per-trial in non-decreasing step order —
the step of the recorded latest observation never decreases — and a stale
observation, one whose step precedes the trial's recorded latest
observation, leaves the trial completely unchanged (`applyObs` is a total
function, so no error is raised). -/
theorem stale_observation_discarded (t : Trial) (o p : Observation)
    (hl : t.lastObs = some p) (hstale : o.step < p.step) :
    applyObs o t = t ∧
    (∀ (u : Trial) (q : Observation), obsStep u ≤ obsStep (applyObs q u)) := by
  constructor
  · have hf : freshObs t o = false := by
      simp [freshObs, hl]
      omega
    simp [applyObs, hf]
  · intro u q
    unfold applyObs
    split
    · rename_i hcond
      obtain ⟨hrun, hfresh⟩ := hcond
      unfold obsStep
      cases hu : u.lastObs with
      | none => simp
      | some p' =>
          simp only
          rw [freshObs, hu] at hfresh
          simpa using hfresh
    · exact le_refl _

/-- Witness for C7: a stale observation at step 3 arriving at a trial whose
latest recorded observation is at step 5 is discarded. -/
theorem stale_observation_discarded_witness :
    applyObs ⟨3, 1/4⟩ staleTrial = staleTrial ∧
    (∀ (u : Trial) (q : Observation), obsStep u ≤ obsStep (applyObs q u)) :=
  stale_observation_discarded staleTrial ⟨3, 1/4⟩ ⟨5, 1/2⟩ rfl (by norm_num)

/-- C6: SweepJob construction fails fast — `InvalidDistributionError` is
raised exactly when the sampling bounds satisfy `low ≥ high` (every bound
representable in this rational model is finite), and, for well-formed
bounds, `InvalidConfigurationError` is raised exactly when
`max_concurrent_trials > max_total_trials` or either count is non-positive;
construction succeeds exactly when neither condition holds. After
construction neither error can occur: the controller's loop is the `Step`
relation, which produces a successor state — never an error value — from
every state. -/
theorem construction_fails_fast (r : RawSweepConfig) :
    (mkSweepJob r = .error .InvalidDistributionError ↔ r.high ≤ r.low) ∧
    (r.low < r.high →
      (mkSweepJob r = .error .InvalidConfigurationError ↔
        (r.maxTotalTrials < r.maxConcurrentTrials ∨ r.maxConcurrentTrials ≤ 0 ∨
         r.maxTotalTrials ≤ 0))) ∧
    (mkSweepJob r = .ok r ↔
      (r.low < r.high ∧ r.maxConcurrentTrials ≤ r.maxTotalTrials ∧
       0 < r.maxConcurrentTrials ∧ 0 < r.maxTotalTrials)) ∧
    (∀ (cfg : SweepConfig) (s : SweepState), ∃ s', Step cfg s s') := by
  refine ⟨?_, ?_, ?_, fun cfg s => ⟨_, Step.reportFailed 0 s⟩⟩
  · unfold mkSweepJob
    split
    · rename_i h; simp [h]
    · rename_i h
      split <;> simp [h]
  · intro hlt
    have hnot : ¬ r.high ≤ r.low := not_le.mpr hlt
    unfold mkSweepJob
    rw [if_neg hnot]
    split
    · rename_i h; simp [h]
    · rename_i h; simp [h]
  · unfold mkSweepJob
    by_cases h1 : r.high ≤ r.low
    · rw [if_pos h1]
      constructor
      · intro hcontra; exact absurd hcontra (by simp)
      · rintro ⟨hlh, -⟩
        exact absurd h1 (not_le.mpr hlh)
    · by_cases h2 : r.maxTotalTrials < r.maxConcurrentTrials ∨ r.maxConcurrentTrials ≤ 0 ∨
          r.maxTotalTrials ≤ 0
      · rw [if_neg h1, if_pos h2]
        constructor
        · intro hcontra; exact absurd hcontra (by simp)
        · rintro ⟨-, hc1, hc2, hc3⟩
          rcases h2 with h | h | h <;> omega
      · rw [if_neg h1, if_neg h2]
        push_neg at h2
        obtain ⟨ha, hb, hc⟩ := h2
        exact ⟨fun _ => ⟨not_le.mp h1, ha, hb, hc⟩, fun _ => rfl⟩

/-- Witness for C6: four concurrent out of twenty total trials over the
bounds `[1e-15, 1e-3]` validates, while twenty concurrent out of four total
raises `InvalidConfigurationError`. -/
theorem construction_fails_fast_witness :
    mkSweepJob ⟨1 / 10 ^ 15, 1 / 10 ^ 3, 20, 4⟩ = .ok ⟨1 / 10 ^ 15, 1 / 10 ^ 3, 20, 4⟩ ∧
    mkSweepJob ⟨0, 1, 4, 20⟩ = .error .InvalidConfigurationError :=
  ⟨(construction_fails_fast ⟨1 / 10 ^ 15, 1 / 10 ^ 3, 20, 4⟩).2.2.1.mpr
      ⟨by norm_num, by norm_num, by norm_num, by norm_num⟩,
   ((construction_fails_fast ⟨0, 1, 4, 20⟩).2.1 (by norm_num)).mpr
      (Or.inl (by norm_num))⟩

/-- A LOG_UNIFORM sample over positive bounds `[low, high]` lies in
`[low, high]`: the exponent is a convex combination of `log low` and
`log high`, and `exp` is monotone. -/
lemma logUniformSample_mem (low high u : ℝ) (hlow : 0 < low) (hle : low ≤ high)
    (h0 : 0 ≤ u) (h1 : u ≤ 1) :
    logUniformSample low high u ∈ Set.Icc low high := by
  have hhigh : 0 < high := lt_of_lt_of_le hlow hle
  have hab : Real.log low ≤ Real.log high := Real.log_le_log hlow hle
  rw [Set.mem_Icc, logUniformSample]
  constructor
  · calc low = Real.exp (Real.log low) := (Real.exp_log hlow).symm
      _ ≤ _ := Real.exp_le_exp.mpr (by nlinarith)
  · calc Real.exp ((1 - u) * Real.log low + u * Real.log high)
        ≤ Real.exp (Real.log high) := Real.exp_le_exp.mpr (by nlinarith)
      _ = high := Real.exp_log hhigh

/-- C4: every call of the LOG_UNIFORM sampler configured with low = 1e-15
and high = 1e-3 — whatever the underlying uniform draw `u ∈ [0, 1]` —
returns a value in the closed interval `[1e-15, 1e-3]`. -/
theorem loguniform_sample_within_bounds (u : ℝ) (h0 : 0 ≤ u) (h1 : u ≤ 1) :
    logUniformSample (1 / 10 ^ 15) (1 / 10 ^ 3) u ∈
      Set.Icc ((1 : ℝ) / 10 ^ 15) ((1 : ℝ) / 10 ^ 3) :=
  logUniformSample_mem (1 / 10 ^ 15) (1 / 10 ^ 3) u (by norm_num) (by norm_num) h0 h1

/-- Witness for C4: the sample at the midpoint draw `u = 1/2` lies within
the configured bounds. -/
theorem loguniform_sample_within_bounds_witness :
    logUniformSample (1 / 10 ^ 15) (1 / 10 ^ 3) (1 / 2) ∈
      Set.Icc ((1 : ℝ) / 10 ^ 15) ((1 : ℝ) / 10 ^ 3) :=
  loguniform_sample_within_bounds (1 / 2) (by norm_num) (by norm_num)

/-- Every single controller step preserves the capacity invariant. -/
lemma step_capacity (cfg : SweepConfig) (st st' : SweepState) (hstep : Step cfg st st')
    (hrun : countRunning st ≤ cfg.maxConcurrentTrials)
    (hcre : everCreated st ≤ cfg.maxTotalTrials) :
    countRunning st' ≤ cfg.maxConcurrentTrials ∧ everCreated st' ≤ cfg.maxTotalTrials := by
  cases hstep with
  | createPending p u h =>
      constructor
      · have heq : countRunning ⟨st.trials ++ [⟨everCreated st, p, .PENDING, none, none⟩]⟩ =
            countRunning st := by
          simp [countRunning, List.countP_append, List.countP_cons, isRunningB]
        rw [heq]; exact hrun
      · show (st.trials ++ [(⟨everCreated st, p, .PENDING, none, none⟩ : Trial)]).length ≤ _
        rw [List.length_append]
        simp only [everCreated] at h hcre
        simp
        omega
  | promote i u h =>
      constructor
      · have hle := countP_modifyAt_le_succ isRunningB promoteTrial i st.trials
        show (modifyAt promoteTrial i st.trials).countP isRunningB ≤ _
        unfold countRunning at h
        omega
      · show (modifyAt promoteTrial i st.trials).length ≤ _
        rw [length_modifyAt]; exact hcre
  | reportCompleted i m u =>
      constructor
      · have hle := countP_modifyAt_le isRunningB (applyCompleted m)
          (isRunningB_applyCompleted m) i st.trials
        show (modifyAt (applyCompleted m) i st.trials).countP isRunningB ≤ _
        unfold countRunning at hrun
        omega
      · show (modifyAt (applyCompleted m) i st.trials).length ≤ _
        rw [length_modifyAt]; exact hcre
  | reportFailed i u =>
      constructor
      · have hle := countP_modifyAt_le isRunningB applyFailed
          isRunningB_applyFailed i st.trials
        show (modifyAt applyFailed i st.trials).countP isRunningB ≤ _
        unfold countRunning at hrun
        omega
      · show (modifyAt applyFailed i st.trials).length ≤ _
        rw [length_modifyAt]; exact hcre
  | cancelExternal i u =>
      constructor
      · have hle := countP_modifyAt_le isRunningB applyCancel
          isRunningB_applyCancel i st.trials
        show (modifyAt applyCancel i st.trials).countP isRunningB ≤ _
        unfold countRunning at hrun
        omega
      · show (modifyAt applyCancel i st.trials).length ≤ _
        rw [length_modifyAt]; exact hcre
  | observe i o u =>
      constructor
      · have hle := countP_modifyAt_le isRunningB (applyObs o)
          (fun t ht => by rwa [isRunningB_applyObs] at ht) i st.trials
        show (modifyAt (applyObs o) i st.trials).countP isRunningB ≤ _
        unfold countRunning at hrun
        omega
      · show (modifyAt (applyObs o) i st.trials).length ≤ _
        rw [length_modifyAt]; exact hcre
  | banditSweep stp u hdiv =>
      unfold banditPass
      split
      · exact ⟨hrun, hcre⟩
      · rename_i b hb
        constructor
        · have hle := countP_map_le isRunningB
            (fun t => if banditCancels cfg.goal cfg.slackFactor stp b t
              then applyCancel t else t)
            (fun t => isRunningB_banditGuard cfg.goal cfg.slackFactor stp b t)
            st.trials
          show (st.trials.map _).countP isRunningB ≤ _
          unfold countRunning at hrun
          omega
        · show (st.trials.map _).length ≤ _
          rw [List.length_map]; exact hcre

/-- The capacity invariant holds in every reachable state: at most
`maxConcurrentTrials` trials are RUNNING and at most `maxTotalTrials` have
ever been created. -/
lemma reachable_capacity (cfg : SweepConfig) (s : SweepState) (h : Reachable cfg s) :
    countRunning s ≤ cfg.maxConcurrentTrials ∧ everCreated s ≤ cfg.maxTotalTrials := by
  induction h with
  | init => exact ⟨Nat.zero_le _, Nat.zero_le _⟩
  | step hr hstep ih => exact step_capacity _ _ _ hstep ih.1 ih.2

/-- C1: in every reachable state of the sweep controller, for every
configuration, the number of RUNNING trials is at most
`max_concurrent_trials` and the number of trials ever created is at most
`max_total_trials`; in the notebook's configuration these caps are 4 and
20. -/
theorem sweep_capacity_invariant (cfg : SweepConfig) (s : SweepState)
    (h : Reachable cfg s) :
    countRunning s ≤ cfg.maxConcurrentTrials ∧ everCreated s ≤ cfg.maxTotalTrials ∧
    notebookConfig.maxConcurrentTrials = 4 ∧ notebookConfig.maxTotalTrials = 20 :=
  ⟨(reachable_capacity cfg s h).1, (reachable_capacity cfg s h).2, rfl, rfl⟩

/-- Witness for C1: the invariant evaluated on a reachable state of the
notebook's sweep — the state after creating one PENDING trial. -/
theorem sweep_capacity_invariant_witness :
    countRunning ⟨[⟨0, 1/2, .PENDING, none, none⟩]⟩ ≤ notebookConfig.maxConcurrentTrials ∧
    everCreated ⟨[⟨0, 1/2, .PENDING, none, none⟩]⟩ ≤ notebookConfig.maxTotalTrials ∧
    notebookConfig.maxConcurrentTrials = 4 ∧ notebookConfig.maxTotalTrials = 20 :=
  sweep_capacity_invariant notebookConfig ⟨[⟨0, 1/2, .PENDING, none, none⟩]⟩
    (Reachable.step Reachable.init
      (Step.createPending (1/2) ⟨[]⟩ (by norm_num [everCreated, notebookConfig])))

/-- C3: a trial in a terminal status (COMPLETED, CANCELLED or FAILED) is
never changed by any controller step — the whole trial record, in
particular its status, stays exactly as it is; a CANCELLED trial receiving
a late COMPLETED or FAILED executor report remains CANCELLED, the report
being ignored. -/
theorem terminal_trials_frozen (cfg : SweepConfig) (s s' : SweepState)
    (hstep : Step cfg s s') (i : Nat) (t : Trial)
    (hget : s.trials[i]? = some t) (hterm : t.status.isTerminal = true) :
    s'.trials[i]? = some t := by
  have hlen : i < s.trials.length := (List.getElem?_eq_some.mp hget).1
  cases hstep with
  | createPending p s h =>
      show (s.trials ++ [_])[i]? = some t
      rw [List.getElem?_append]
      simp only [hlen, if_pos]
      exact hget
  | promote j s h =>
      show (modifyAt promoteTrial j s.trials)[i]? = some t
      rw [getElem?_modifyAt]
      split
      · rw [hget]
        simp [promoteTrial_terminal t hterm]
      · exact hget
  | reportCompleted j m s =>
      show (modifyAt (applyCompleted m) j s.trials)[i]? = some t
      rw [getElem?_modifyAt]
      split
      · rw [hget]
        simp [applyCompleted_terminal m t hterm]
      · exact hget
  | reportFailed j s =>
      show (modifyAt applyFailed j s.trials)[i]? = some t
      rw [getElem?_modifyAt]
      split
      · rw [hget]
        simp [applyFailed_terminal t hterm]
      · exact hget
  | cancelExternal j s =>
      show (modifyAt applyCancel j s.trials)[i]? = some t
      rw [getElem?_modifyAt]
      split
      · rw [hget]
        simp [applyCancel_terminal t hterm]
      · exact hget
  | observe j o s =>
      show (modifyAt (applyObs o) j s.trials)[i]? = some t
      rw [getElem?_modifyAt]
      split
      · rw [hget]
        simp [applyObs_terminal o t hterm]
      · exact hget
  | banditSweep stp s hdiv =>
      unfold banditPass
      cases hb : bestSoFar cfg.goal s stp with
      | none => exact hget
      | some b =>
          show (s.trials.map _)[i]? = some t
          rw [List.getElem?_map, hget]
          simp [banditCancels_terminal cfg.goal cfg.slackFactor stp b t hterm]

/-- Witness for C3: a late COMPLETED report (final metric 0.90) arriving at
the single already-CANCELLED trial of `cancelledState` leaves the trial
record untouched. -/
theorem terminal_trials_frozen_witness :
    (⟨modifyAt (applyCompleted (9/10)) 0 cancelledState.trials⟩ : SweepState).trials[0]? =
      some cancelledTrial :=
  terminal_trials_frozen notebookConfig cancelledState
    ⟨modifyAt (applyCompleted (9/10)) 0 cancelledState.trials⟩
    (Step.reportCompleted 0 (9/10) cancelledState) 0 cancelledTrial rfl rfl

/-- `pickBestIdx` returns `none` only on the empty list. -/
lemma pickBestIdx_eq_none (goal : Goal) (l : List Trial) :
    pickBestIdx goal l = none ↔ l = [] := by
  cases l with
  | nil => simp [pickBestIdx]
  | cons t ts =>
      constructor
      · intro h
        exfalso
        rw [pickBestIdx] at h
        cases hrec : pickBestIdx goal ts with
        | none =>
            rw [hrec] at h
            dsimp only at h
            exact Option.noConfusion h
        | some p =>
            obtain ⟨i, u⟩ := p
            rw [hrec] at h
            dsimp only at h
            split at h <;> exact Option.noConfusion h
      · intro h
        exact List.noConfusion h

/-- Correctness of `pickBestIdx` for goal MAXIMIZE: the returned index
holds the returned trial, no trial in the list has a greater metric, and
every trial at an earlier index has a strictly smaller metric (so the
returned trial is the earliest one attaining the maximum). -/
lemma pickBestIdx_spec (l : List Trial) (i : Nat) (t : Trial)
    (h : pickBestIdx .MAXIMIZE l = some (i, t)) :
    l[i]? = some t ∧
    (∀ (j : Nat) (u : Trial), l[j]? = some u → metricOf u ≤ metricOf t) ∧
    (∀ (j : Nat) (u : Trial), j < i → l[j]? = some u → metricOf u < metricOf t) := by
  induction l generalizing i t with
  | nil => simp [pickBestIdx] at h
  | cons a as ih =>
      rw [pickBestIdx] at h
      cases hrec : pickBestIdx .MAXIMIZE as with
      | none =>
          rw [hrec] at h
          dsimp only at h
          have hnil : as = [] := (pickBestIdx_eq_none _ _).mp hrec
          subst hnil
          simp only [Option.some.injEq, Prod.mk.injEq] at h
          obtain ⟨hi, ht⟩ := h
          subst hi; subst ht
          refine ⟨rfl, ?_, ?_⟩
          · intro j u hj
            cases j with
            | zero =>
                simp only [List.getElem?_cons_zero, Option.some.injEq] at hj
                subst hj; exact le_refl _
            | succ m => simp at hj
          · intro j u hlt hj
            omega
      | some p =>
          obtain ⟨i', u⟩ := p
          rw [hrec] at h
          dsimp only at h
          by_cases hb : isBetter .MAXIMIZE (metricOf u) (metricOf a) = true
          · rw [if_pos hb] at h
            simp only [Option.some.injEq, Prod.mk.injEq] at h
            obtain ⟨hi, ht⟩ := h
            subst hi; subst ht
            have hlt : metricOf a < metricOf u := by
              simpa [isBetter] using hb
            obtain ⟨ih1, ih2, ih3⟩ := ih i' u hrec
            refine ⟨by simpa using ih1, ?_, ?_⟩
            · intro j v hj
              cases j with
              | zero =>
                  simp only [List.getElem?_cons_zero, Option.some.injEq] at hj
                  subst hj; exact le_of_lt hlt
              | succ m =>
                  simp only [List.getElem?_cons_succ] at hj
                  exact ih2 m v hj
            · intro j v hjlt hj
              cases j with
              | zero =>
                  simp only [List.getElem?_cons_zero, Option.some.injEq] at hj
                  subst hj; exact hlt
              | succ m =>
                  simp only [List.getElem?_cons_succ] at hj
                  exact ih3 m v (by omega) hj
          · rw [if_neg hb] at h
            simp only [Option.some.injEq, Prod.mk.injEq] at h
            obtain ⟨hi, ht⟩ := h
            subst hi; subst ht
            have hle : metricOf u ≤ metricOf a := by
              simp only [isBetter, decide_eq_true_eq] at hb
              exact le_of_not_lt hb
            obtain ⟨ih1, ih2, ih3⟩ := ih i' u hrec
            refine ⟨by simp, ?_, ?_⟩
            · intro j v hj
              cases j with
              | zero =>
                  simp only [List.getElem?_cons_zero, Option.some.injEq] at hj
                  subst hj; exact le_refl _
              | succ m =>
                  simp only [List.getElem?_cons_succ] at hj
                  exact le_trans (ih2 m v hj) hle
            · intro j v hjlt hj
              omega

/-- C5: when `selectBest` returns a trial for goal MAXIMIZE, that trial is
COMPLETED, belongs to the sweep, no COMPLETED trial of the sweep has a
greater final metric, and every completed trial created earlier (at a
smaller index among the completed trials, which are kept in creation order)
has a strictly smaller final metric — ties are broken by earliest creation
order. On the spec's example (completed final metrics 0.79, 0.85, 0.90,
0.77, goal MAXIMIZE) the selected trial is the one with final metric
0.90. -/
theorem best_trial_selected (s : SweepState) (i : Nat) (t : Trial)
    (h : selectBest .MAXIMIZE s = some (i, t)) :
    t.status = .COMPLETED ∧ t ∈ s.trials ∧
    (∀ u ∈ s.trials, u.status = .COMPLETED → metricOf u ≤ metricOf t) ∧
    (∀ (j : Nat) (u : Trial), j < i → (completedTrials s)[j]? = some u →
      metricOf u < metricOf t) ∧
    selectBest .MAXIMIZE exampleState = some (2, bestExampleTrial) := by
  obtain ⟨hs1, hs2, hs3⟩ := pickBestIdx_spec (completedTrials s) i t h
  have hmem : t ∈ completedTrials s := by
    obtain ⟨hlt, ht⟩ := List.getElem?_eq_some.mp hs1
    subst ht
    exact List.getElem_mem hlt
  have hfil := List.mem_filter.mp hmem
  refine ⟨by simpa using hfil.2, hfil.1, ?_, hs3, ?_⟩
  · intro u hu hc
    have humem : u ∈ completedTrials s := List.mem_filter.mpr ⟨hu, by simp [hc]⟩
    obtain ⟨j, hjlt, hj⟩ := List.getElem_of_mem humem
    exact hs2 j u (by rw [List.getElem?_eq_getElem hjlt, hj])
  · norm_num [selectBest, completedTrials, exampleState, bestExampleTrial, pickBestIdx,
      isBetter, metricOf]

/-- Witness for C5: on the spec's example state the theorem applies to the
selected trial, the one with final metric 0.90. -/
theorem best_trial_selected_witness :
    bestExampleTrial.status = .COMPLETED ∧ bestExampleTrial ∈ exampleState.trials ∧
    (∀ u ∈ exampleState.trials, u.status = .COMPLETED →
      metricOf u ≤ metricOf bestExampleTrial) := by
  have h := best_trial_selected exampleState 2 bestExampleTrial
    (by norm_num [selectBest, completedTrials, exampleState, bestExampleTrial, pickBestIdx,
      isBetter, metricOf])
  exact ⟨h.1, h.2.1, h.2.2.1⟩

end PetDetector
